import Mathlib

/-!
Shallow embedding of the multiplayer state-synchronization core of
`src/server.js` (cosmic-chaos).  JavaScript numbers are modelled by an
inductive that distinguishes NaN, the two infinities and finite values;
payload fields are modelled by a JavaScript-value type so that `typeof`
checks, truthiness and `isNaN` can be rendered faithfully.  The `players`
Map is a key-ordered association list with JS `Map` set/get/delete
semantics.  Outbound traffic is made explicit: each fan-out returns the
list of (socket id, message) deliveries it performed, plus the send
failures it caught (or the single uncaught failure that aborted it, for
the fan-out that has no per-send try/catch).
-/

namespace CosmicChaos

/-- Model of a JavaScript number: NaN, the infinities, or a finite value. -/
inductive JsNum where
  | nan
  | posInf
  | negInf
  | fin (v : Int)
deriving DecidableEq, Repr

/-- Model of a JavaScript payload field value: a number, a string, or
`undefined` (which also stands for an absent field). -/
inductive JsVal where
  | num (n : JsNum)
  | str (s : String)
  | undef
deriving DecidableEq, Repr

/-- A three-component payload vector, as received in `updatePosition` /
`placeBomb` payloads; each component is an arbitrary JS value. -/
structure JsVec where
  x : JsVal
  y : JsVal
  z : JsVal
deriving DecidableEq, Repr

/-- Rendering of `typeof v === 'number'` (server.js lines 409-411, 421-423). -/
def typeofNumber : JsVal → Bool
  | .num _ => true
  | _ => false

/-- Rendering of `isNaN(v)` as applied in server.js after the `typeof` check has
already established the value is a number. -/
def jsIsNaN : JsVal → Bool
  | .num .nan => true
  | _ => false

/-- JavaScript truthiness of a payload value (used by `data.countdown || 10`
in `handleBombPlacement`): `undefined`, `NaN`, `0` and `""` are falsy. -/
def jsTruthy : JsVal → Bool
  | .num .nan => false
  | .num (.fin v) => v != 0
  | .num _ => true
  | .str s => s != ""
  | .undef => false

/-- A WebSocket transport handle: an identity, whether `readyState` is
`OPEN`, and whether an attempted `send` on it throws. -/
structure Socket where
  sid : Nat
  readyStateOpen : Bool
  sendThrows : Bool
deriving DecidableEq, Repr

/-- The per-player record stored in the `players` Map (server.js
lines 69-78); `landedPlanetId` is absent (undefined) at creation and set
by the alien-mode handler. -/
structure Player where
  id : String
  position : JsVec
  rotation : JsVec
  color : String
  isAlienMode : Bool
  landedPlanetId : Option String
  lastUpdate : Int
  socket : Socket
  pingTime : Int
deriving DecidableEq, Repr

/-- The reduced per-player projection placed in each `gameState` snapshot
(server.js lines 236-242): exactly `id, position, rotation, isAlienMode,
landedPlanetId`, and nothing else — in particular no color, socket,
`lastUpdate` or `pingTime` field exists in this type. -/
structure StateView where
  id : String
  position : JsVec
  rotation : JsVec
  isAlienMode : Bool
  landedPlanetId : Option String
deriving DecidableEq, Repr

/-- The public per-player view used by `init` / `playerJoined`
(`getPlayerDataForBroadcast`, server.js lines 383-392). -/
structure PublicView where
  id : String
  position : JsVec
  rotation : JsVec
  color : String
  isAlienMode : Bool
  landedPlanetId : Option String
deriving DecidableEq, Repr

/-- A seed planet stub (server.js lines 43-47). -/
structure Planet where
  id : String
  px : Int
  py : Int
  pz : Int
  size : Int
  ptype : String
deriving DecidableEq, Repr

/-- The fixed seed planet list (server.js lines 43-47). -/
def planets : List Planet :=
  [ ⟨"p1", 1000, 0, 1000, 50, "Rocky"⟩,
    ⟨"p2", -1500, 200, -800, 70, "Gaseous"⟩,
    ⟨"p3", 800, -100, -1200, 40, "Molten"⟩ ]

/-- The fixed color palette (server.js line 39). -/
def playerColors : List String :=
  ["#FF4136", "#0074D9", "#2ECC40", "#FFDC00", "#B10DC9", "#FF851B", "#7FDBFF", "#F012BE"]

/-- Broadcast interval in ms (server.js line 50). -/
def SYNC_RATE : Int := 100

/-- Eviction threshold in ms (server.js line 219, `const timeout = 30000`). -/
def timeoutMs : Int := 30000

/-- Outbound server-to-client frames relevant to the claims. -/
inductive ServerMsg where
  | init (playerId : String) (playerColor : String)
      (players : List (String × PublicView)) (planetList : List Planet)
  | playerJoined (player : PublicView)
  | playerLeft (playerId : String)
  | gameState (players : List (String × StateView)) (timestamp : Int)
  | bombPlaced (playerId : String) (planetId : String) (position : JsVec) (countdown : JsVal)
  | chat (playerId : String) (playerColor : String) (message : String)
deriving DecidableEq, Repr

/-- The `players` Map, as a key-ordered association list. -/
abbrev Registry := List (String × Player)

/-- JS `Map.prototype.get`. -/
def mapGet {α : Type} : List (String × α) → String → Option α
  | [], _ => none
  | (k, v) :: rest, key => if k = key then some v else mapGet rest key

/-- JS `Map.prototype.set`: replaces in place if the key exists (keeping
its position in iteration order), otherwise appends. -/
def mapSet {α : Type} : List (String × α) → String → α → List (String × α)
  | [], key, v => [(key, v)]
  | (k, w) :: rest, key, v =>
      if k = key then (key, v) :: rest else (k, w) :: mapSet rest key v

/-- JS `Map.prototype.delete` (removes the entry with the given key). -/
def mapDelete {α : Type} : List (String × α) → String → List (String × α)
  | [], _ => []
  | (k, v) :: rest, key =>
      if k = key then mapDelete rest key else (k, v) :: mapDelete rest key

/-- Mutating a stored player record through its Map entry (JS objects are
updated in place by reference; the entry keeps its key and position). -/
def mapUpdate {α : Type} : List (String × α) → String → (α → α) → List (String × α)
  | [], _, _ => []
  | (k, w) :: rest, key, f =>
      if k = key then (k, f w) :: mapUpdate rest key f
      else (k, w) :: mapUpdate rest key f

/-- Source `isValidPosition` (server.js lines 406-416): the argument is truthy
(not absent), each component is of number type, and none is NaN.  Note
the source checks `isNaN`, not finiteness, so infinities pass. -/
def isValidPosition : Option JsVec → Bool
  | none => false
  | some p =>
      typeofNumber p.x && typeofNumber p.y && typeofNumber p.z &&
      !jsIsNaN p.x && !jsIsNaN p.y && !jsIsNaN p.z

/-- Source `isValidRotation` (server.js lines 418-428), same checks as
`isValidPosition`. -/
def isValidRotation : Option JsVec → Bool
  | none => false
  | some r =>
      typeofNumber r.x && typeofNumber r.y && typeofNumber r.z &&
      !jsIsNaN r.x && !jsIsNaN r.y && !jsIsNaN r.z

/-- A fan-out in which every send sits in its own try/catch: used by
`broadcastToAll` (lines 447-462), the chat loop (lines 371-379) and the
`gameState` loop (lines 252-260).  Visits every entry in Map order;
skips closed sockets silently; a throwing send is caught and its socket
id logged, and iteration continues.  Returns (deliveries, caught
failures). -/
def sendAllCaught : List (String × Player) → ServerMsg →
    List (Nat × ServerMsg) × List Nat
  | [], _ => ([], [])
  | (_, p) :: rest, msg =>
      let r := sendAllCaught rest msg
      if p.socket.readyStateOpen then
        if p.socket.sendThrows then (r.1, p.socket.sid :: r.2)
        else ((p.socket.sid, msg) :: r.1, r.2)
      else r

/-- Source `broadcastToAll` (server.js lines 447-462): per-send try/catch. -/
def broadcastToAll (reg : Registry) (msg : ServerMsg) :
    List (Nat × ServerMsg) × List Nat :=
  sendAllCaught reg msg

/-- Source `broadcastToOthers` (server.js lines 438-444): sends to every entry
other than `excludeId` whose socket is open, with NO try/catch around the
send — a throwing send propagates out of the `forEach`, aborting delivery
to every entry not yet visited.  Returns the deliveries made before any
throw, and the socket id of the uncaught throwing send if one occurred. -/
def broadcastToOthers : List (String × Player) → String → ServerMsg →
    List (Nat × ServerMsg) × Option Nat
  | [], _, _ => ([], none)
  | (k, p) :: rest, excludeId, msg =>
      if k != excludeId && p.socket.readyStateOpen then
        if p.socket.sendThrows then ([], some p.socket.sid)
        else
          let r := broadcastToOthers rest excludeId msg
          ((p.socket.sid, msg) :: r.1, r.2)
      else broadcastToOthers rest excludeId msg

/-- Source `getPlayerDataForBroadcast` (server.js lines 383-392). -/
def getPlayerDataForBroadcast (p : Player) : PublicView :=
  ⟨p.id, p.position, p.rotation, p.color, p.isAlienMode, p.landedPlanetId⟩

/-- Source `getPlayersData` (server.js lines 395-403). -/
def getPlayersData (reg : Registry) : List (String × PublicView) :=
  reg.map (fun e => (e.1, getPlayerDataForBroadcast e.2))

/-- The per-player projection built inside `syncGameState`
(server.js lines 236-242). -/
def stateView (p : Player) : StateView :=
  ⟨p.id, p.position, p.rotation, p.isAlienMode, p.landedPlanetId⟩

/-- Falsiness of a `URLSearchParams.get` result: `null` (parameter
absent) and the empty string are both falsy in `!playerColor` /
`urlParams.get('username') || generateId()`. -/
def strParamFalsy : Option String → Bool
  | none => true
  | some s => s = ""

/-- Result of the `wss.on('connection')` handler (server.js lines
53-114): the registry and round-robin counter afterwards, the chosen id
and color, the `init` frame delivery (if the new socket was open and its
send did not throw), and the `playerJoined` fan-out result. -/
structure ConnectResult where
  registry : Registry
  counter : Nat
  playerId : String
  playerColor : String
  initDelivered : Option (Nat × ServerMsg)
  joined : List (Nat × ServerMsg) × Option Nat
deriving DecidableEq, Repr

/-- The `wss.on('connection')` handler (server.js lines 53-114).
`usernameParam` / `colorParam` are the `username` / `color` query
parameters (`none` when absent), `genId` is the outcome the random
`generateId()` would produce, `now` is `Date.now()` at connect.  The id
is the username parameter when truthy, else `genId`; the color is the
color parameter when truthy, else the palette entry at the counter, in
which case the counter advances by one modulo the palette size.  The new
record is `Map.set` into the registry (silently replacing any live entry
under the same id), then `init` is sent to the new socket and
`playerJoined` is fanned out to the others via `broadcastToOthers`. -/
def handleConnection (reg : Registry) (counter : Nat)
    (usernameParam colorParam : Option String) (genId : String)
    (sock : Socket) (now : Int) : ConnectResult :=
  let username := if strParamFalsy usernameParam then genId else usernameParam.getD ""
  let playerId := username
  let playerColor :=
    if strParamFalsy colorParam then playerColors.getD counter "" else colorParam.getD ""
  let counter' :=
    if strParamFalsy colorParam then (counter + 1) % playerColors.length else counter
  let playerData : Player :=
    { id := playerId
      position := ⟨.num (.fin 0), .num (.fin 100), .num (.fin 0)⟩
      rotation := ⟨.num (.fin 0), .num (.fin 0), .num (.fin 0)⟩
      color := playerColor
      isAlienMode := false
      landedPlanetId := none
      lastUpdate := now
      socket := sock
      pingTime := 0 }
  let reg' := mapSet reg playerId playerData
  let initMsg := ServerMsg.init playerId playerColor (getPlayersData reg') planets
  let initDelivered :=
    if sock.readyStateOpen && !sock.sendThrows then some (sock.sid, initMsg) else none
  let joined :=
    broadcastToOthers reg' playerId (.playerJoined (getPlayerDataForBroadcast playerData))
  ⟨reg', counter', playerId, playerColor, initDelivered, joined⟩

/-- The `ws.on('close')` handler (server.js lines 167-181): broadcasts
`playerLeft` for the session id to the whole registry (per-send
try/catch via `broadcastToAll`), THEN deletes the entry.  Returns the
registry afterwards and the fan-out result.  Note there is no check that
the id is still registered before broadcasting. -/
def onClose (reg : Registry) (playerId : String) :
    Registry × (List (Nat × ServerMsg) × List Nat) :=
  let out := broadcastToAll reg (.playerLeft playerId)
  (mapDelete reg playerId, out)

/-- The `ws.on('error')` handler (server.js lines 184-188): deletes the
entry and broadcasts nothing.  The (always empty) delivery list is
returned so the absence of any `playerLeft` frame is explicit. -/
def onError (reg : Registry) (playerId : String) :
    Registry × List (Nat × ServerMsg) :=
  (mapDelete reg playerId, [])

/-- The `updatePosition` payload: the `position` and `rotation` fields,
each possibly absent. -/
structure UpdatePosData where
  position : Option JsVec
  rotation : Option JsVec
deriving DecidableEq, Repr

/-- Source `updatePlayerPosition` (server.js lines 276-294): no-op when the
sender has no session or when either vector fails validation; otherwise
overwrites the stored position and rotation with the payload vectors and
refreshes `lastUpdate`. -/
def updatePlayerPosition (reg : Registry) (playerId : String)
    (data : UpdatePosData) (now : Int) : Registry :=
  match mapGet reg playerId with
  | none => reg
  | some _ =>
      if !(isValidPosition data.position) || !(isValidRotation data.rotation) then reg
      else
        match data.position, data.rotation with
        | some pos, some rot =>
            mapUpdate reg playerId
              (fun p => { p with position := pos, rotation := rot, lastUpdate := now })
        | _, _ => reg

/-- One `replace(/c/g, r)` pass over the characters of a string. -/
def replaceCharL (c : Char) (r : List Char) : List Char → List Char
  | [] => []
  | a :: rest =>
      if a = c then r ++ replaceCharL c r rest else a :: replaceCharL c r rest

/-- Rendering of `message.replace(/</g, '&lt;').replace(/>/g, '&gt;')`
(server.js line 358). -/
def sanitizeMessage (m : String) : String :=
  ⟨replaceCharL '>' ['&', 'g', 't', ';'] (replaceCharL '<' ['&', 'l', 't', ';'] m.data)⟩

/-- Source `broadcastChat` (server.js lines 353-380): returns immediately when
the sender has no session, the message is empty (falsy), or its raw
length exceeds 200 (no trim is applied); otherwise sends the sanitized
frame, tagged with the sender id and color, to every open socket —
including the sender — with a per-send try/catch. -/
def broadcastChat (reg : Registry) (playerId : String) (message : String) :
    List (Nat × ServerMsg) × List Nat :=
  match mapGet reg playerId with
  | none => ([], [])
  | some player =>
      if message = "" ∨ message.length > 200 then ([], [])
      else sendAllCaught reg (.chat playerId player.color (sanitizeMessage message))

/-- The `placeBomb` payload. -/
structure BombData where
  planetId : Option String
  position : Option JsVec
  countdown : JsVal
deriving DecidableEq, Repr

/-- Source `handleBombPlacement` (server.js lines 320-335): no-op when
`planetId` is falsy (absent or empty) or the position fails
`isValidPosition`; otherwise broadcasts `bombPlaced` to all sessions
with `countdown: data.countdown || 10` — the default 10 applies whenever
the payload countdown is falsy (absent, 0, NaN or empty string), not
only when it is absent. -/
def handleBombPlacement (reg : Registry) (playerId : String) (data : BombData) :
    List (Nat × ServerMsg) × List Nat :=
  match data.planetId, data.position with
  | some planetId, some pos =>
      if planetId = "" ∨ isValidPosition (some pos) = false then ([], [])
      else
        broadcastToAll reg (.bombPlaced playerId planetId pos
          (if jsTruthy data.countdown then data.countdown else .num (.fin 10)))
  | _, _ => ([], [])

/-- The timeout sweep at the top of `syncGameState` (server.js lines
221-231): visits the entries present when the tick began, in Map order;
any entry whose `lastUpdate` is more than 30 000 ms old is deleted from
the current registry and `playerLeft` is broadcast (with per-send
try/catch) to the registry as it stands after that deletion.  Returns
the surviving registry, the evicted ids in visit order, and the
`playerLeft` deliveries. -/
def sweepVisit (now : Int) : List (String × Player) → Registry →
    Registry × List String × List (Nat × ServerMsg)
  | [], cur => (cur, [], [])
  | (k, p) :: rest, cur =>
      if now - p.lastUpdate > timeoutMs then
        ((sweepVisit now rest (mapDelete cur k)).1,
         k :: (sweepVisit now rest (mapDelete cur k)).2.1,
         (broadcastToAll (mapDelete cur k) (.playerLeft k)).1 ++
           (sweepVisit now rest (mapDelete cur k)).2.2)
      else sweepVisit now rest cur

/-- Result of one `syncGameState` tick. -/
structure SyncResult where
  registry : Registry
  evicted : List String
  leftDeliveries : List (Nat × ServerMsg)
  snapshot : List (String × StateView)
  stateDeliveries : List (Nat × ServerMsg)
  stateFailures : List Nat
deriving DecidableEq, Repr

/-- Source `syncGameState` (server.js lines 215-273).  In order: (1) the
timeout sweep; (2) build the reduced snapshot from the surviving
registry; (3) send the `gameState` frame to every open socket with a
per-send try/catch; (4) refresh `lastUpdate` to `now` for every
surviving player whose `lastUpdate` is more than `SYNC_RATE * 2` ms
old.  The snapshot is built and sent before the refresh. -/
def syncGameState (reg : Registry) (now : Int) : SyncResult :=
  let s := sweepVisit now reg reg
  let snapshot := s.1.map (fun e => (e.1, stateView e.2))
  let msg := ServerMsg.gameState snapshot now
  let sent := sendAllCaught s.1 msg
  let refreshed := s.1.map (fun e =>
    (e.1, if now - e.2.lastUpdate > SYNC_RATE * 2 then { e.2 with lastUpdate := now } else e.2))
  ⟨refreshed, s.2.1, s.2.2, snapshot, sent.1, sent.2⟩

/-- Runs `n` consecutive `syncGameState` ticks at times
`100 * (i + 1), 100 * (i + 2), ...` with no inbound traffic, returning
the final registry and every id evicted along the way. -/
def runSilent : Nat → Nat → Registry → Registry × List String
  | 0, _, reg => (reg, [])
  | n + 1, i, reg =>
      let r := syncGameState reg (100 * ((i : Int) + 1))
      let rest := runSilent n (i + 1) r.registry
      (rest.1, r.evicted ++ rest.2)

/-- Payload-component acceptance as the source actually checks it: the
component is of number type and is not NaN — infinities are accepted,
since the source tests `isNaN`, not finiteness. -/
def acceptsComponent : JsVal → Bool
  | .num .nan => false
  | .num _ => true
  | _ => false

/-- All three components of a payload vector pass `acceptsComponent`. -/
def acceptsVec (v : JsVec) : Bool :=
  acceptsComponent v.x && acceptsComponent v.y && acceptsComponent v.z

/-- The condition under which `updatePlayerPosition` actually mutates:
both vectors present and all six components non-NaN numbers. -/
def payloadAccepted (d : UpdatePosData) : Bool :=
  match d.position, d.rotation with
  | some p, some r => acceptsVec p && acceptsVec r
  | _, _ => false

/-- Rendering of the spec's words "three finite numeric fields": a
component qualifies only when it is a number that is neither NaN nor an
infinity.  Declared solely to state the original claim C6 for comparison
with the source's `isValidPosition`, which accepts infinities. -/
def specFiniteComponent : JsVal → Bool
  | .num (.fin _) => true
  | _ => false

/-- Whitespace test used to render the spec's "after trim". -/
def isSpaceChar (c : Char) : Bool :=
  c = ' ' || c = '\t' || c = '\n' || c = '\r'

/-- Rendering of the spec's words "after trim" for claim C7: the message
with leading and trailing whitespace removed.  The source applies no
trim at all; this definition exists only to state the original claim. -/
def trimChars (m : String) : String :=
  ⟨((m.data.dropWhile isSpaceChar).reverse.dropWhile isSpaceChar).reverse⟩

/-!  ### Registry (JS Map) lemmas  -/

theorem mapGet_mem {α : Type} {m : List (String × α)} {key : String} {v : α}
    (h : mapGet m key = some v) : (key, v) ∈ m := by
  induction m with
  | nil => simp [mapGet] at h
  | cons e rest ih =>
      obtain ⟨k, w⟩ := e
      by_cases hk : k = key
      · subst hk
        simp [mapGet] at h
        subst h
        exact List.mem_cons_self _ _
      · simp only [mapGet, if_neg hk] at h
        exact List.mem_cons_of_mem _ (ih h)

theorem mapGet_of_mem_nodup {α : Type} {m : List (String × α)} {key : String} {v : α}
    (hnd : (m.map Prod.fst).Nodup) (h : (key, v) ∈ m) : mapGet m key = some v := by
  induction m with
  | nil => simp at h
  | cons e rest ih =>
      obtain ⟨k, w⟩ := e
      simp only [List.map_cons, List.nodup_cons] at hnd
      rcases List.mem_cons.mp h with h1 | h1
      · have hk : key = k := congrArg Prod.fst h1
        have hv : v = w := congrArg Prod.snd h1
        subst hk; subst hv
        simp [mapGet]
      · have hne : k ≠ key := by
          intro hkk
          subst hkk
          exact hnd.1 (List.mem_map.mpr ⟨(k, v), h1, rfl⟩)
        simp only [mapGet, if_neg hne]
        exact ih hnd.2 h1

theorem mapGet_mapDelete_of_ne {α : Type} {m : List (String × α)} {k key : String}
    (hne : k ≠ key) : mapGet (mapDelete m k) key = mapGet m key := by
  induction m with
  | nil => rfl
  | cons e rest ih =>
      obtain ⟨k', w⟩ := e
      by_cases hk : k' = k
      · subst hk
        simp only [mapDelete, if_pos rfl, mapGet, if_neg hne]
        exact ih
      · by_cases hk2 : k' = key
        · subst hk2
          simp [mapDelete, mapGet, (Ne.symm hne : k' ≠ k)]
        · simp only [mapDelete, if_neg hk, mapGet, if_neg hk2]
          exact ih

theorem mapGet_mapDelete_self {α : Type} (m : List (String × α)) (key : String) :
    mapGet (mapDelete m key) key = none := by
  induction m with
  | nil => rfl
  | cons e rest ih =>
      obtain ⟨k, w⟩ := e
      by_cases hk : k = key
      · simp only [mapDelete, if_pos hk]
        exact ih
      · simp only [mapDelete, if_neg hk, mapGet, if_neg hk]
        exact ih

theorem mapGet_mapDelete_none {α : Type} {m : List (String × α)} {k key : String}
    (h : mapGet m key = none) : mapGet (mapDelete m k) key = none := by
  by_cases hk : k = key
  · subst hk
    exact mapGet_mapDelete_self m _
  · rw [mapGet_mapDelete_of_ne hk]
    exact h

theorem mapDelete_eq_of_mapGet_none {α : Type} {m : List (String × α)} {key : String}
    (h : mapGet m key = none) : mapDelete m key = m := by
  induction m with
  | nil => rfl
  | cons e rest ih =>
      obtain ⟨k, w⟩ := e
      by_cases hk : k = key
      · subst hk
        simp [mapGet] at h
      · simp only [mapGet, if_neg hk] at h
        simp only [mapDelete, if_neg hk]
        rw [ih h]

theorem mem_of_mem_mapDelete {α : Type} {m : List (String × α)} {key : String}
    {e : String × α} (h : e ∈ mapDelete m key) : e ∈ m := by
  induction m with
  | nil => simp [mapDelete] at h
  | cons a rest ih =>
      obtain ⟨k, w⟩ := a
      by_cases hk : k = key
      · simp only [mapDelete, if_pos hk] at h
        exact List.mem_cons_of_mem _ (ih h)
      · simp only [mapDelete, if_neg hk] at h
        rcases List.mem_cons.mp h with h1 | h1
        · exact h1 ▸ List.mem_cons_self _ _
        · exact List.mem_cons_of_mem _ (ih h1)

theorem mem_mapDelete_of_ne {α : Type} {m : List (String × α)} {key k : String}
    {v : α} (h : (k, v) ∈ m) (hne : k ≠ key) : (k, v) ∈ mapDelete m key := by
  induction m with
  | nil => simp at h
  | cons e rest ih =>
      obtain ⟨k', w⟩ := e
      rcases List.mem_cons.mp h with h1 | h1
      · have hk : k = k' := congrArg Prod.fst h1
        have hv : v = w := congrArg Prod.snd h1
        subst hk
        subst hv
        simp only [mapDelete, if_neg hne]
        exact List.mem_cons_self _ _
      · by_cases hk : k' = key
        · simp only [mapDelete, if_pos hk]
          exact ih h1
        · simp only [mapDelete, if_neg hk]
          exact List.mem_cons_of_mem _ (ih h1)

theorem mapGet_mapUpdate_self {α : Type} (m : List (String × α)) (key : String)
    (f : α → α) : mapGet (mapUpdate m key f) key = (mapGet m key).map f := by
  induction m with
  | nil => rfl
  | cons e rest ih =>
      obtain ⟨k, w⟩ := e
      by_cases hk : k = key
      · subst hk
        simp [mapUpdate, mapGet]
      · simp only [mapUpdate, if_neg hk, mapGet, if_neg hk]
        exact ih

theorem mapGet_map_snd_none {α β : Type} {m : List (String × α)} {key : String}
    (g : String × α → β) (h : mapGet m key = none) :
    mapGet (m.map (fun e => (e.1, g e))) key = none := by
  induction m with
  | nil => rfl
  | cons e rest ih =>
      obtain ⟨k, w⟩ := e
      by_cases hk : k = key
      · subst hk
        simp [mapGet] at h
      · simp only [mapGet, if_neg hk] at h
        simp only [List.map_cons, mapGet, if_neg hk]
        exact ih h

/-!  ### Fan-out lemmas  -/

theorem sendAllCaught_mem_delivered {reg : List (String × Player)} {msg : ServerMsg}
    {k : String} {q : Player} (h : (k, q) ∈ reg)
    (ho : q.socket.readyStateOpen = true) (ht : q.socket.sendThrows = false) :
    (q.socket.sid, msg) ∈ (sendAllCaught reg msg).1 := by
  induction reg with
  | nil => simp at h
  | cons e rest ih =>
      obtain ⟨k', p⟩ := e
      rcases List.mem_cons.mp h with h1 | h1
      · have hp : q = p := congrArg Prod.snd h1
        subst hp
        simp [sendAllCaught, ho, ht]
      · have hrec := ih h1
        by_cases ho' : p.socket.readyStateOpen
        · by_cases ht' : p.socket.sendThrows
          · simpa [sendAllCaught, ho', ht'] using hrec
          · simp only [sendAllCaught, ho', ht']
            simp only [if_true, if_false, Bool.false_eq_true]
            exact List.mem_cons_of_mem _ hrec
        · simpa [sendAllCaught, ho'] using hrec

theorem sendAllCaught_mem_failed {reg : List (String × Player)} {msg : ServerMsg}
    {k : String} {q : Player} (h : (k, q) ∈ reg)
    (ho : q.socket.readyStateOpen = true) (ht : q.socket.sendThrows = true) :
    q.socket.sid ∈ (sendAllCaught reg msg).2 := by
  induction reg with
  | nil => simp at h
  | cons e rest ih =>
      obtain ⟨k', p⟩ := e
      rcases List.mem_cons.mp h with h1 | h1
      · have hp : q = p := congrArg Prod.snd h1
        subst hp
        simp [sendAllCaught, ho, ht]
      · have hrec := ih h1
        by_cases ho' : p.socket.readyStateOpen
        · by_cases ht' : p.socket.sendThrows
          · simp only [sendAllCaught, ho', ht', if_true]
            exact List.mem_cons_of_mem _ hrec
          · simpa [sendAllCaught, ho', ht'] using hrec
        · simpa [sendAllCaught, ho'] using hrec

theorem sendAllCaught_delivered_msg {reg : List (String × Player)} {msg : ServerMsg}
    {d : Nat × ServerMsg} (h : d ∈ (sendAllCaught reg msg).1) : d.2 = msg := by
  induction reg with
  | nil => simp [sendAllCaught] at h
  | cons e rest ih =>
      obtain ⟨k, p⟩ := e
      by_cases ho : p.socket.readyStateOpen
      · by_cases ht : p.socket.sendThrows
        · simp only [sendAllCaught, ho, ht, if_true] at h
          exact ih h
        · simp only [sendAllCaught, ho, ht] at h
          simp only [if_true, if_false, Bool.false_eq_true] at h
          rcases List.mem_cons.mp h with h1 | h1
          · exact congrArg Prod.snd h1
          · exact ih h1
      · simp only [sendAllCaught, ho] at h
        simp only [if_false, Bool.false_eq_true] at h
        exact ih h

/-- When every entry of a prefix either gets skipped (excluded id or
closed socket) or sends without throwing, `broadcastToOthers` traverses
the whole prefix and continues into the remainder of the list. -/
theorem broadcastToOthers_clean_append {ex : String} {msg : ServerMsg} :
    ∀ (pre tail : List (String × Player)),
    (∀ e ∈ pre, (e.1 != ex && e.2.socket.readyStateOpen) = true →
        e.2.socket.sendThrows = false) →
    broadcastToOthers (pre ++ tail) ex msg =
      ((broadcastToOthers pre ex msg).1 ++ (broadcastToOthers tail ex msg).1,
        (broadcastToOthers tail ex msg).2) := by
  intro pre
  induction pre with
  | nil =>
      intro tail hclean
      simp [broadcastToOthers]
  | cons e rest ih =>
      intro tail hclean
      obtain ⟨k, p⟩ := e
      by_cases hc : (k != ex && p.socket.readyStateOpen) = true
      · have hnt : p.socket.sendThrows = false :=
          hclean (k, p) (List.mem_cons_self _ _) hc
        simp only [List.cons_append, broadcastToOthers, hc, if_true, hnt]
        simp only [if_false, Bool.false_eq_true, List.append_eq]
        rw [ih tail (fun e he hce => hclean e (List.mem_cons_of_mem _ he) hce)]
        simp
      · have hc' : (k != ex && p.socket.readyStateOpen) = false :=
          Bool.not_eq_true _ ▸ Bool.of_not_eq_true hc
        simp only [List.cons_append, broadcastToOthers, hc']
        simp only [Bool.false_eq_true, if_false]
        exact ih tail (fun e he hce => hclean e (List.mem_cons_of_mem _ he) hce)

/-!  ### Sweep lemmas  -/

theorem sweepVisit_mapGet_none {now : Int} {key : String} :
    ∀ (v : List (String × Player)) (cur : Registry),
    mapGet cur key = none → mapGet (sweepVisit now v cur).1 key = none := by
  intro v
  induction v with
  | nil =>
      intro cur h
      simpa [sweepVisit] using h
  | cons e rest ih =>
      intro cur h
      obtain ⟨k, p⟩ := e
      by_cases hc : now - p.lastUpdate > timeoutMs
      · simp only [sweepVisit, if_pos hc]
        exact ih _ (mapGet_mapDelete_none h)
      · simp only [sweepVisit, if_neg hc]
        exact ih _ h

theorem sweepVisit_mapGet_preserved {now : Int} {key : String} :
    ∀ (v : List (String × Player)) (cur : Registry),
    (∀ e ∈ v, now - e.2.lastUpdate > timeoutMs → e.1 ≠ key) →
    mapGet (sweepVisit now v cur).1 key = mapGet cur key := by
  intro v
  induction v with
  | nil =>
      intro cur _
      rfl
  | cons e rest ih =>
      intro cur hside
      obtain ⟨k, p⟩ := e
      by_cases hc : now - p.lastUpdate > timeoutMs
      · have hne : k ≠ key := hside (k, p) (List.mem_cons_self _ _) hc
        simp only [sweepVisit, if_pos hc]
        rw [ih _ (fun e he hst => hside e (List.mem_cons_of_mem _ he) hst)]
        exact mapGet_mapDelete_of_ne hne
      · simp only [sweepVisit, if_neg hc]
        exact ih _ (fun e he hst => hside e (List.mem_cons_of_mem _ he) hst)

theorem sweepVisit_evicts {now : Int} {key : String} {p : Player}
    (hst : now - p.lastUpdate > timeoutMs) :
    ∀ (v : List (String × Player)) (cur : Registry), (key, p) ∈ v →
    key ∈ (sweepVisit now v cur).2.1 ∧ mapGet (sweepVisit now v cur).1 key = none := by
  intro v
  induction v with
  | nil =>
      intro cur h
      simp at h
  | cons e rest ih =>
      intro cur h
      obtain ⟨k, q⟩ := e
      rcases List.mem_cons.mp h with h1 | h1
      · have hk : key = k := congrArg Prod.fst h1
        have hq : p = q := congrArg Prod.snd h1
        subst hk; subst hq
        simp only [sweepVisit, if_pos hst]
        refine ⟨List.mem_cons_self _ _, ?_⟩
        exact sweepVisit_mapGet_none rest _ (mapGet_mapDelete_self cur key)
      · by_cases hq : now - q.lastUpdate > timeoutMs
        · simp only [sweepVisit, if_pos hq]
          rcases ih (mapDelete cur k) h1 with ⟨h2, h3⟩
          exact ⟨List.mem_cons_of_mem _ h2, h3⟩
        · simp only [sweepVisit, if_neg hq]
          exact ih cur h1

theorem mem_of_mem_sweepVisit {now : Int} :
    ∀ (v : List (String × Player)) (cur : Registry) (e : String × Player),
    e ∈ (sweepVisit now v cur).1 → e ∈ cur := by
  intro v
  induction v with
  | nil =>
      intro cur e h
      simpa [sweepVisit] using h
  | cons a rest ih =>
      intro cur e h
      obtain ⟨k, p⟩ := a
      by_cases hc : now - p.lastUpdate > timeoutMs
      · simp only [sweepVisit, if_pos hc] at h
        exact mem_of_mem_mapDelete (ih _ e h)
      · simp only [sweepVisit, if_neg hc] at h
        exact ih _ e h

/-- When the sweep visits a stale entry `(pid, p)`, it broadcasts
`playerLeft pid` to the registry as it stands after that entry's
deletion — so every recipient that is present throughout (its key is
never a stale visited key) and whose socket is open and non-throwing
receives the frame among the sweep's deliveries. -/
theorem sweepVisit_left_delivery {now : Int} {pid : String} {p : Player}
    {k : String} {q : Player} (hst : now - p.lastUpdate > timeoutMs)
    (ho : q.socket.readyStateOpen = true) (ht : q.socket.sendThrows = false) :
    ∀ (v : List (String × Player)) (cur : Registry),
    (pid, p) ∈ v → (k, q) ∈ cur →
    (∀ e ∈ v, now - e.2.lastUpdate > timeoutMs → e.1 ≠ k) →
    (q.socket.sid, ServerMsg.playerLeft pid) ∈ (sweepVisit now v cur).2.2 := by
  intro v
  induction v with
  | nil =>
      intro cur h _ _
      simp at h
  | cons e rest ih =>
      intro cur hpv hkq hside
      obtain ⟨k', p'⟩ := e
      rcases List.mem_cons.mp hpv with h1 | h1
      · have hk1 : pid = k' := congrArg Prod.fst h1
        have hp1 : p = p' := congrArg Prod.snd h1
        subst hk1
        subst hp1
        simp only [sweepVisit, if_pos hst]
        apply List.mem_append_left
        have hne : pid ≠ k := hside (pid, p) (List.mem_cons_self _ _) hst
        exact sendAllCaught_mem_delivered (mem_mapDelete_of_ne hkq (Ne.symm hne)) ho ht
      · by_cases hstale : now - p'.lastUpdate > timeoutMs
        · have hne : k' ≠ k := hside (k', p') (List.mem_cons_self _ _) hstale
          simp only [sweepVisit, if_pos hstale]
          apply List.mem_append_right
          exact ih (mapDelete cur k') h1 (mem_mapDelete_of_ne hkq (Ne.symm hne))
            (fun e he hs => hside e (List.mem_cons_of_mem _ he) hs)
        · simp only [sweepVisit, if_neg hstale]
          exact ih cur h1 hkq (fun e he hs => hside e (List.mem_cons_of_mem _ he) hs)

/-!  ### Validation and sanitization lemmas  -/

theorem typeof_and_not_nan (a : JsVal) :
    (typeofNumber a && !jsIsNaN a) = acceptsComponent a := by
  cases a with
  | num n => cases n <;> rfl
  | str s => rfl
  | undef => rfl

theorem isValidPosition_some (v : JsVec) : isValidPosition (some v) = acceptsVec v := by
  simp only [isValidPosition, acceptsVec, ← typeof_and_not_nan]
  generalize typeofNumber v.x = a
  generalize typeofNumber v.y = b
  generalize typeofNumber v.z = c
  generalize jsIsNaN v.x = d
  generalize jsIsNaN v.y = e
  generalize jsIsNaN v.z = f
  revert a b c d e f
  decide

theorem isValidRotation_some (v : JsVec) : isValidRotation (some v) = acceptsVec v := by
  simp only [isValidRotation, ← isValidPosition_some, isValidPosition]

theorem mem_replaceCharL {a c : Char} {r : List Char} :
    ∀ {l : List Char}, a ∈ replaceCharL c r l → a ∈ r ∨ (a ∈ l ∧ a ≠ c) := by
  intro l
  induction l with
  | nil =>
      intro h
      simp [replaceCharL] at h
  | cons b rest ih =>
      intro h
      by_cases hb : b = c
      · simp only [replaceCharL, if_pos hb] at h
        rcases List.mem_append.mp h with h1 | h1
        · exact Or.inl h1
        · rcases ih h1 with h2 | h2
          · exact Or.inl h2
          · exact Or.inr ⟨List.mem_cons_of_mem _ h2.1, h2.2⟩
      · simp only [replaceCharL, if_neg hb] at h
        rcases List.mem_cons.mp h with h1 | h1
        · subst h1
          exact Or.inr ⟨List.mem_cons_self _ _, hb⟩
        · rcases ih h1 with h2 | h2
          · exact Or.inl h2
          · exact Or.inr ⟨List.mem_cons_of_mem _ h2.1, h2.2⟩

theorem sanitizeMessage_no_angle (m : String) :
    ∀ a ∈ (sanitizeMessage m).data, a ≠ '<' ∧ a ≠ '>' := by
  intro a ha
  have ha' : a ∈ replaceCharL '>' ['&', 'g', 't', ';']
      (replaceCharL '<' ['&', 'l', 't', ';'] m.data) := ha
  rcases mem_replaceCharL ha' with h1 | h1
  · have : a = '&' ∨ a = 'g' ∨ a = 't' ∨ a = ';' := by simpa using h1
    rcases this with rfl | rfl | rfl | rfl <;> exact ⟨by decide, by decide⟩
  · rcases mem_replaceCharL h1.1 with h2 | h2
    · have : a = '&' ∨ a = 'l' ∨ a = 't' ∨ a = ';' := by simpa using h2
      rcases this with rfl | rfl | rfl | rfl <;> exact ⟨by decide, by decide⟩
    · exact ⟨h2.2, h1.2⟩

/-!  ### Claim C1  -/

def c1player : Player :=
  { id := "uno"
    position := ⟨.num (.fin 0), .num (.fin 100), .num (.fin 0)⟩
    rotation := ⟨.num (.fin 0), .num (.fin 0), .num (.fin 0)⟩
    color := "#FF4136", isAlienMode := false, landedPlanetId := none
    lastUpdate := 0, socket := ⟨1, true, false⟩, pingTime := 0 }

def c1reg : Registry := [("uno", c1player)]

set_option maxRecDepth 40000 in
/-- C1: the claim says a client that connects and then sends nothing for
31 seconds, while the 100 ms sweep keeps running, is removed within one
sweep after the 30-second mark and a `playerLeft` is broadcast.  The
code refutes this: the refresh step at the end of every `syncGameState`
tick resets `lastUpdate` for any player stale by more than
`SYNC_RATE * 2` (200 ms), so staleness never reaches 30 000 ms while the
sweep runs.  Evaluating 311 consecutive ticks (31.1 s of wall time)
after a connect at time 0 with no inbound traffic: the session is still
registered and no eviction (hence no `playerLeft`) ever occurred. -/
theorem C1_silent_client_never_evicted :
    (mapGet (runSilent 311 0 c1reg).1 "uno").isSome = true ∧
    (runSilent 311 0 c1reg).2 = [] := by decide

/-!  ### Claim C2  -/

def c2sockFirst : Socket := ⟨1, true, false⟩

def c2sockSecond : Socket := ⟨2, true, false⟩

def c2first : ConnectResult :=
  handleConnection [] 0 (some "alice") none "gen1" c2sockFirst 0

def c2second : ConnectResult :=
  handleConnection c2first.registry c2first.counter (some "alice") none "gen2" c2sockSecond 5

/-- C2: the claim says a connect whose requested id collides with a live
session must not silently overwrite that session's still-open connection
handle.  The code violates it: two connects with `username=alice` leave
a single registry entry whose stored socket is the second one — the
first, still-open socket (nothing on this path closes it) has been
silently dropped from the registry. -/
theorem C2_collision_overwrites :
    (mapGet c2first.registry "alice").map (fun p => p.socket.sid) = some 1 ∧
    (mapGet c2second.registry "alice").map (fun p => p.socket.sid) = some 2 ∧
    c2second.registry.length = 1 ∧
    c2sockFirst.readyStateOpen = true := by decide

/-!  ### Claim C4  -/

/-- C4 (amended): running the close-handler disconnect path for an id
not present in the registry raises no error and leaves the registry
unchanged (the Map delete of an absent key is a no-op), BUT it still
unconditionally broadcasts `playerLeft` for that id — so a second
invocation for an already-removed session (e.g. transport close after a
timeout eviction) produces a duplicate `playerLeft`, contrary to the
original claim's "no additional playerLeft broadcast". -/
theorem C4_close_absent_no_op_but_broadcasts (reg : Registry) (pid : String)
    (h : mapGet reg pid = none) :
    (onClose reg pid).1 = reg ∧
    ∀ d ∈ (onClose reg pid).2.1, d.2 = ServerMsg.playerLeft pid := by
  constructor
  · exact mapDelete_eq_of_mapGet_none h
  · intro d hd
    exact sendAllCaught_delivered_msg hd

def c4bob : Player :=
  { id := "bob"
    position := ⟨.num (.fin 0), .num (.fin 100), .num (.fin 0)⟩
    rotation := ⟨.num (.fin 0), .num (.fin 0), .num (.fin 0)⟩
    color := "#0074D9", isAlienMode := false, landedPlanetId := none
    lastUpdate := 0, socket := ⟨2, true, false⟩, pingTime := 0 }

def c4reg : Registry := [("bob", c4bob)]

/-- C4 counterexample: with "alice" absent from the registry, running the
close path for "alice" still delivers a `playerLeft alice` frame to the
remaining player — the claim's "no additional playerLeft broadcast" is
false on the code. -/
theorem C4_close_absent_still_broadcasts :
    mapGet c4reg "alice" = none ∧
    (onClose c4reg "alice").2.1 = [(2, ServerMsg.playerLeft "alice")] := by decide

/-- C4 witness: the amended theorem applied at a concrete input. -/
theorem C4_close_absent_no_op_but_broadcasts_witness :
    (onClose c4reg "alice").1 = c4reg ∧
    ∀ d ∈ (onClose c4reg "alice").2.1, d.2 = ServerMsg.playerLeft "alice" :=
  C4_close_absent_no_op_but_broadcasts c4reg "alice" (by decide)

/-!  ### Claim C5  -/

/-- C5 (amended): the close path and the timeout sweep both remove the
session from the registry and broadcast `playerLeft` carrying its id —
for the sweep, the `playerLeft pid` frame is delivered (among the
tick's sweep deliveries) to every surviving session whose socket is
open and non-throwing, provided registry keys are unique; the
transport-error path removes the session from the registry but
broadcasts nothing at all (its handler only clears the ping timer and
deletes the entry). -/
theorem C5_termination_paths (reg : Registry) (pid : String) (now : Int) (p : Player)
    (hmem : (pid, p) ∈ reg) (hst : now - p.lastUpdate > timeoutMs) :
    mapGet (onClose reg pid).1 pid = none ∧
    (∀ d ∈ (onClose reg pid).2.1, d.2 = ServerMsg.playerLeft pid) ∧
    (∀ k q, (k, q) ∈ reg → q.socket.readyStateOpen = true → q.socket.sendThrows = false →
      (q.socket.sid, ServerMsg.playerLeft pid) ∈ (onClose reg pid).2.1) ∧
    mapGet (onError reg pid).1 pid = none ∧
    (onError reg pid).2 = [] ∧
    pid ∈ (syncGameState reg now).evicted ∧
    mapGet (syncGameState reg now).registry pid = none ∧
    ((reg.map Prod.fst).Nodup →
      ∀ k q, (k, q) ∈ reg → now - q.lastUpdate ≤ timeoutMs →
        q.socket.readyStateOpen = true → q.socket.sendThrows = false →
        (q.socket.sid, ServerMsg.playerLeft pid) ∈ (syncGameState reg now).leftDeliveries) := by
  refine ⟨mapGet_mapDelete_self reg pid, ?_, ?_, mapGet_mapDelete_self reg pid, rfl, ?_, ?_, ?_⟩
  · intro d hd
    exact sendAllCaught_delivered_msg hd
  · intro k q hq ho ht
    exact sendAllCaught_mem_delivered hq ho ht
  · have h1 := (sweepVisit_evicts hst reg reg hmem).1
    simpa [syncGameState] using h1
  · have h3 := (sweepVisit_evicts hst reg reg hmem).2
    have h4 := mapGet_map_snd_none
      (fun e => if now - e.2.lastUpdate > SYNC_RATE * 2 then { e.2 with lastUpdate := now } else e.2)
      h3
    simpa [syncGameState] using h4
  · intro hnd k q hq hfresh ho ht
    have hside : ∀ e ∈ reg, now - e.2.lastUpdate > timeoutMs → e.1 ≠ k := by
      rintro ⟨k', q'⟩ hmem' hst' hkey
      have hkey' : k' = k := hkey
      have hkq' : mapGet reg k' = some q' := mapGet_of_mem_nodup hnd hmem'
      have hkq : mapGet reg k = some q := mapGet_of_mem_nodup hnd hq
      rw [hkey', hkq] at hkq'
      injection hkq' with hqq
      subst hqq
      exact absurd hst' (not_lt.mpr hfresh)
    have h5 := sweepVisit_left_delivery hst ho ht reg reg hmem hq hside
    simpa [syncGameState] using h5

def c5gone : Player :=
  { id := "gone"
    position := ⟨.num (.fin 0), .num (.fin 100), .num (.fin 0)⟩
    rotation := ⟨.num (.fin 0), .num (.fin 0), .num (.fin 0)⟩
    color := "#2ECC40", isAlienMode := false, landedPlanetId := none
    lastUpdate := 0, socket := ⟨3, true, false⟩, pingTime := 0 }

def c5stay : Player :=
  { id := "stay"
    position := ⟨.num (.fin 0), .num (.fin 100), .num (.fin 0)⟩
    rotation := ⟨.num (.fin 0), .num (.fin 0), .num (.fin 0)⟩
    color := "#FFDC00", isAlienMode := false, landedPlanetId := none
    lastUpdate := 40000, socket := ⟨4, true, false⟩, pingTime := 0 }

def c5reg : Registry := [("gone", c5gone), ("stay", c5stay)]

/-- C5 witness: the amended theorem applied at a concrete input (a
session 31 s stale at sweep time, with a fresh, open second session
that receives the sweep's `playerLeft` broadcast). -/
theorem C5_termination_paths_witness :
    mapGet (onClose c5reg "gone").1 "gone" = none ∧
    (∀ d ∈ (onClose c5reg "gone").2.1, d.2 = ServerMsg.playerLeft "gone") ∧
    (∀ k q, (k, q) ∈ c5reg → q.socket.readyStateOpen = true → q.socket.sendThrows = false →
      (q.socket.sid, ServerMsg.playerLeft "gone") ∈ (onClose c5reg "gone").2.1) ∧
    mapGet (onError c5reg "gone").1 "gone" = none ∧
    (onError c5reg "gone").2 = [] ∧
    "gone" ∈ (syncGameState c5reg 31000).evicted ∧
    mapGet (syncGameState c5reg 31000).registry "gone" = none ∧
    ((c5reg.map Prod.fst).Nodup →
      ∀ k q, (k, q) ∈ c5reg → (31000 : Int) - q.lastUpdate ≤ timeoutMs →
        q.socket.readyStateOpen = true → q.socket.sendThrows = false →
        (q.socket.sid, ServerMsg.playerLeft "gone") ∈
          (syncGameState c5reg 31000).leftDeliveries) :=
  C5_termination_paths c5reg "gone" 31000 c5gone (by decide) (by decide)

def c5ea : Player :=
  { id := "a"
    position := ⟨.num (.fin 0), .num (.fin 100), .num (.fin 0)⟩
    rotation := ⟨.num (.fin 0), .num (.fin 0), .num (.fin 0)⟩
    color := "#B10DC9", isAlienMode := false, landedPlanetId := none
    lastUpdate := 0, socket := ⟨1, true, false⟩, pingTime := 0 }

def c5eb : Player :=
  { id := "b"
    position := ⟨.num (.fin 0), .num (.fin 100), .num (.fin 0)⟩
    rotation := ⟨.num (.fin 0), .num (.fin 0), .num (.fin 0)⟩
    color := "#FF851B", isAlienMode := false, landedPlanetId := none
    lastUpdate := 0, socket := ⟨2, true, false⟩, pingTime := 0 }

def c5ereg : Registry := [("a", c5ea), ("b", c5eb)]

/-- C5 counterexample: a transport-error termination for a registered
session removes it from the registry but emits NO `playerLeft` (the
error handler's delivery list is empty), refuting the claim that every
termination path broadcasts `playerLeft`. -/
theorem C5_error_path_broadcasts_nothing :
    mapGet c5ereg "a" = some c5ea ∧
    mapGet (onError c5ereg "a").1 "a" = none ∧
    (onError c5ereg "a").2 = [] := by decide

/-!  ### Claim C10  -/

/-- C10 (amended): the round-robin counter is left unchanged exactly
when the connect supplies a NON-EMPTY color query parameter (which is
then used verbatim); when the parameter is absent OR EMPTY (`?color=`
is falsy in `!playerColor`), the server assigns the palette entry at the
counter and advances the counter by one modulo the palette size. -/
theorem C10_color_counter (reg : Registry) (counter : Nat)
    (usernameParam colorParam : Option String) (genId : String) (sock : Socket) (now : Int) :
    (strParamFalsy colorParam = false →
      (handleConnection reg counter usernameParam colorParam genId sock now).counter = counter ∧
      (handleConnection reg counter usernameParam colorParam genId sock now).playerColor =
        colorParam.getD "") ∧
    (strParamFalsy colorParam = true →
      (handleConnection reg counter usernameParam colorParam genId sock now).counter =
        (counter + 1) % playerColors.length ∧
      (handleConnection reg counter usernameParam colorParam genId sock now).playerColor =
        playerColors.getD counter "") := by
  constructor
  · intro h
    constructor <;> simp [handleConnection, h]
  · intro h
    constructor <;> simp [handleConnection, h]

/-- C10 witness: a connect supplying a non-empty color keeps the counter
at 3 and uses the color verbatim. -/
theorem C10_color_counter_witness :
    (handleConnection [] 3 none (some "#ABCDEF") "gen" ⟨1, true, false⟩ 0).counter = 3 ∧
    (handleConnection [] 3 none (some "#ABCDEF") "gen" ⟨1, true, false⟩ 0).playerColor =
      "#ABCDEF" :=
  (C10_color_counter [] 3 none (some "#ABCDEF") "gen" ⟨1, true, false⟩ 0).1 (by decide)

/-- C10 counterexample: a connect whose upgrade request supplies the
color query parameter with an empty value (`?color=`) nevertheless
advances the counter (5 becomes 6), refuting the claim that supplying a
color parameter always leaves the counter unchanged. -/
theorem C10_empty_color_advances_counter :
    (handleConnection [] 5 (some "u") (some "") "gen" ⟨1, true, false⟩ 0).counter = 6 ∧
    ¬(handleConnection [] 5 (some "u") (some "") "gen" ⟨1, true, false⟩ 0).counter = 5 := by
  decide

/-!  ### Claim C3  -/

/-- C3 (amended): `broadcastToAll` (and the chat and gameState loops,
which share its per-send try/catch shape) attempts every open recipient
independently — a throwing send is caught and logged and every other
open, non-throwing recipient still receives the frame.  But
`broadcastToOthers` has NO per-send try/catch: the first throwing send
on an open, non-excluded socket aborts the `forEach`, so the fan-out
delivers only to the recipients visited before the failure and never
attempts the rest. -/
theorem C3_fanout_error_handling (reg : Registry) (msg : ServerMsg) :
    (∀ k q, (k, q) ∈ reg → q.socket.readyStateOpen = true → q.socket.sendThrows = false →
      (q.socket.sid, msg) ∈ (broadcastToAll reg msg).1) ∧
    (∀ k q, (k, q) ∈ reg → q.socket.readyStateOpen = true → q.socket.sendThrows = true →
      q.socket.sid ∈ (broadcastToAll reg msg).2) ∧
    (∀ (pre tail : List (String × Player)) (k : String) (p : Player) (ex : String),
      reg = pre ++ (k, p) :: tail →
      (∀ e ∈ pre, (e.1 != ex && e.2.socket.readyStateOpen) = true →
          e.2.socket.sendThrows = false) →
      (k != ex) = true → p.socket.readyStateOpen = true → p.socket.sendThrows = true →
      broadcastToOthers reg ex msg = ((broadcastToOthers pre ex msg).1, some p.socket.sid)) := by
  refine ⟨?_, ?_, ?_⟩
  · intro k q hq ho ht
    exact sendAllCaught_mem_delivered hq ho ht
  · intro k q hq ho ht
    exact sendAllCaught_mem_failed hq ho ht
  · intro pre tail k p ex hreg hclean hke ho ht
    subst hreg
    rw [broadcastToOthers_clean_append pre ((k, p) :: tail) hclean]
    have hcond : (k != ex && p.socket.readyStateOpen) = true := by
      rw [hke, ho]
      rfl
    simp [broadcastToOthers, hcond, ht]

def c3pa : Player :=
  { id := "a"
    position := ⟨.num (.fin 0), .num (.fin 100), .num (.fin 0)⟩
    rotation := ⟨.num (.fin 0), .num (.fin 0), .num (.fin 0)⟩
    color := "#FF4136", isAlienMode := false, landedPlanetId := none
    lastUpdate := 0, socket := ⟨1, true, false⟩, pingTime := 0 }

def c3pb : Player :=
  { id := "b"
    position := ⟨.num (.fin 0), .num (.fin 100), .num (.fin 0)⟩
    rotation := ⟨.num (.fin 0), .num (.fin 0), .num (.fin 0)⟩
    color := "#0074D9", isAlienMode := false, landedPlanetId := none
    lastUpdate := 0, socket := ⟨2, true, true⟩, pingTime := 0 }

def c3pc : Player :=
  { id := "c"
    position := ⟨.num (.fin 0), .num (.fin 100), .num (.fin 0)⟩
    rotation := ⟨.num (.fin 0), .num (.fin 0), .num (.fin 0)⟩
    color := "#2ECC40", isAlienMode := false, landedPlanetId := none
    lastUpdate := 0, socket := ⟨3, true, false⟩, pingTime := 0 }

def c3ps : Player :=
  { id := "s"
    position := ⟨.num (.fin 0), .num (.fin 100), .num (.fin 0)⟩
    rotation := ⟨.num (.fin 0), .num (.fin 0), .num (.fin 0)⟩
    color := "#FFDC00", isAlienMode := false, landedPlanetId := none
    lastUpdate := 0, socket := ⟨9, true, false⟩, pingTime := 0 }

def c3reg : Registry := [("s", c3ps), ("a", c3pa), ("b", c3pb), ("c", c3pc)]

/-- C3 counterexample: in `broadcastToOthers` a send failure to "b" is
NOT caught — the fan-out stops after delivering to "a" only, and
delivery is never attempted to "c" even though "c"'s socket is open,
non-throwing and not the excluded sender.  This refutes the claim that
every fan-out's sends are each independently try/caught. -/
theorem C3_uncaught_send_failure :
    broadcastToOthers c3reg "s" (ServerMsg.playerLeft "x") =
      ([(1, ServerMsg.playerLeft "x")], some 2) ∧
    (3, ServerMsg.playerLeft "x") ∉ (broadcastToOthers c3reg "s" (ServerMsg.playerLeft "x")).1 ∧
    (mapGet c3reg "c").map (fun q => (q.socket.readyStateOpen, q.socket.sendThrows)) =
      some (true, false) := by decide

/-- C3 witness: the amended theorem applied at a concrete input — the
throwing recipient "b" aborts `broadcastToOthers` right after the
deliveries of the clean prefix. -/
theorem C3_fanout_error_handling_witness :
    broadcastToOthers [("a", c3pa), ("b", c3pb), ("c", c3pc)] "z" (ServerMsg.playerLeft "w") =
      ((broadcastToOthers [("a", c3pa)] "z" (ServerMsg.playerLeft "w")).1, some 2) :=
  (C3_fanout_error_handling [("a", c3pa), ("b", c3pb), ("c", c3pc)]
      (ServerMsg.playerLeft "w")).2.2
    [("a", c3pa)] [("c", c3pc)] "b" c3pb "z" (by decide) (by decide) (by decide) (by decide)
    (by decide)

/-!  ### Claim C6  -/

/-- C6 (amended): an `updatePosition` payload overwrites the sending
session's stored position and rotation (and refreshes `lastUpdate`) if
and only if the session exists and both payload vectors are present with
every component a number that is not NaN — infinities are ACCEPTED,
because the source checks `isNaN` rather than finiteness; in every other
case (missing vector, missing component, non-number or NaN component, or
unknown session) the registry is left completely unchanged. -/
theorem C6_updatePosition_guard (reg : Registry) (pid : String) (d : UpdatePosData)
    (now : Int) :
    (payloadAccepted d = false → updatePlayerPosition reg pid d now = reg) ∧
    (mapGet reg pid = none → updatePlayerPosition reg pid d now = reg) ∧
    (∀ p pos rot, mapGet reg pid = some p → d.position = some pos → d.rotation = some rot →
      payloadAccepted d = true →
      mapGet (updatePlayerPosition reg pid d now) pid =
        some { p with position := pos, rotation := rot, lastUpdate := now }) := by
  refine ⟨?_, ?_, ?_⟩
  · intro hrej
    cases hm : mapGet reg pid with
    | none => simp [updatePlayerPosition, hm]
    | some p =>
        cases hp : d.position with
        | none => simp [updatePlayerPosition, hm, hp, isValidPosition]
        | some pos =>
            cases hr : d.rotation with
            | none => simp [updatePlayerPosition, hm, hp, hr, isValidRotation]
            | some rot =>
                simp only [payloadAccepted, hp, hr] at hrej
                cases ha : acceptsVec pos with
                | false =>
                    simp [updatePlayerPosition, hm, hp, hr, isValidPosition_some, ha]
                | true =>
                    cases hb : acceptsVec rot with
                    | false =>
                        simp [updatePlayerPosition, hm, hp, hr, isValidPosition_some,
                          isValidRotation_some, ha, hb]
                    | true =>
                        rw [ha, hb] at hrej
                        simp at hrej
  · intro hm
    simp [updatePlayerPosition, hm]
  · intro p pos rot hm hp hr hacc
    simp only [payloadAccepted, hp, hr] at hacc
    rw [Bool.and_eq_true] at hacc
    simp only [updatePlayerPosition, hm, hp, hr, isValidPosition_some, isValidRotation_some,
      hacc.1, hacc.2, Bool.not_true, Bool.or_self, Bool.false_eq_true, if_false]
    rw [mapGet_mapUpdate_self, hm]
    rfl

def c6p : Player :=
  { id := "ufo"
    position := ⟨.num (.fin 0), .num (.fin 100), .num (.fin 0)⟩
    rotation := ⟨.num (.fin 0), .num (.fin 0), .num (.fin 0)⟩
    color := "#FF4136", isAlienMode := false, landedPlanetId := none
    lastUpdate := 0, socket := ⟨1, true, false⟩, pingTime := 0 }

def c6reg : Registry := [("ufo", c6p)]

def c6data : UpdatePosData :=
  ⟨some ⟨.num .posInf, .num (.fin 0), .num (.fin 0)⟩,
   some ⟨.num (.fin 0), .num (.fin 0), .num (.fin 0)⟩⟩

/-- C6 counterexample: a payload whose `position.x` is `Infinity` fails
the claim's "three finite numeric components" condition
(`specFiniteComponent` renders the spec's words) yet the code accepts it
(`isNaN(Infinity)` is false) and DOES overwrite the stored position —
refuting the claim's "if and only if ... finite". -/
theorem C6_infinity_mutates :
    specFiniteComponent (JsVal.num .posInf) = false ∧
    (mapGet (updatePlayerPosition c6reg "ufo" c6data 7) "ufo").map Player.position =
      some ⟨.num .posInf, .num (.fin 0), .num (.fin 0)⟩ ∧
    (mapGet c6reg "ufo").map Player.position =
      some ⟨.num (.fin 0), .num (.fin 100), .num (.fin 0)⟩ := by decide

def c6wp : Player :=
  { id := "z"
    position := ⟨.num (.fin 0), .num (.fin 100), .num (.fin 0)⟩
    rotation := ⟨.num (.fin 0), .num (.fin 0), .num (.fin 0)⟩
    color := "#7FDBFF", isAlienMode := false, landedPlanetId := none
    lastUpdate := 0, socket := ⟨1, true, false⟩, pingTime := 0 }

def c6wreg : Registry := [("z", c6wp)]

def c6wpos : JsVec := ⟨.num (.fin 1), .num (.fin 2), .num (.fin 3)⟩

def c6wrot : JsVec := ⟨.num (.fin 0), .num (.fin 0), .num (.fin 0)⟩

def c6wdata : UpdatePosData := ⟨some c6wpos, some c6wrot⟩

/-- C6 witness: the amended theorem applied at a concrete accepted
payload. -/
theorem C6_updatePosition_guard_witness :
    mapGet (updatePlayerPosition c6wreg "z" c6wdata 9) "z" =
      some { c6wp with position := c6wpos, rotation := c6wrot, lastUpdate := 9 } :=
  (C6_updatePosition_guard c6wreg "z" c6wdata 9).2.2 c6wp c6wpos c6wrot
    (by decide) (by decide) (by decide) (by decide)

/-!  ### Claim C7  -/

/-- C7 (amended): a chat message is relayed if and only if the sender's
session exists, the message is non-empty, and its RAW length is at most
200 characters — the source applies no trim, so whitespace-only messages
are relayed and the length check is on the untrimmed string.  When
relayed, every `<` and `>` is replaced (`&lt;` / `&gt;`, so the
sanitized text contains no angle bracket), and the frame, tagged with
the sender's id and color, is delivered to every open, non-throwing
socket including the sender's. -/
theorem C7_chat_relay (reg : Registry) (pid msg : String) :
    (mapGet reg pid = none → broadcastChat reg pid msg = ([], [])) ∧
    (msg = "" → broadcastChat reg pid msg = ([], [])) ∧
    (msg.length > 200 → broadcastChat reg pid msg = ([], [])) ∧
    (∀ p, mapGet reg pid = some p → msg ≠ "" → msg.length ≤ 200 →
      (∀ a ∈ (sanitizeMessage msg).data, a ≠ '<' ∧ a ≠ '>') ∧
      (∀ k q, (k, q) ∈ reg → q.socket.readyStateOpen = true → q.socket.sendThrows = false →
        (q.socket.sid, ServerMsg.chat pid p.color (sanitizeMessage msg)) ∈
          (broadcastChat reg pid msg).1)) := by
  refine ⟨?_, ?_, ?_, ?_⟩
  · intro hm
    simp [broadcastChat, hm]
  · intro he
    cases hm : mapGet reg pid with
    | none => simp [broadcastChat, hm]
    | some p => simp [broadcastChat, hm, he]
  · intro hl
    cases hm : mapGet reg pid with
    | none => simp [broadcastChat, hm]
    | some p => simp [broadcastChat, hm, hl]
  · intro p hm hne hle
    refine ⟨sanitizeMessage_no_angle msg, ?_⟩
    intro k q hq ho ht
    have hcond : ¬(msg = "" ∨ msg.length > 200) := by
      push_neg
      exact ⟨hne, hle⟩
    simp only [broadcastChat, hm, if_neg hcond]
    exact sendAllCaught_mem_delivered hq ho ht

def c7p : Player :=
  { id := "ann"
    position := ⟨.num (.fin 0), .num (.fin 100), .num (.fin 0)⟩
    rotation := ⟨.num (.fin 0), .num (.fin 0), .num (.fin 0)⟩
    color := "#FF4136", isAlienMode := false, landedPlanetId := none
    lastUpdate := 0, socket := ⟨1, true, false⟩, pingTime := 0 }

def c7reg : Registry := [("ann", c7p)]

/-- C7 counterexample: the message consisting of a single space is empty
after trim (`trimChars` renders the spec's "after trim"), so by the
claim it must not be relayed — yet the code, which never trims, relays
it verbatim to the sender. -/
theorem C7_space_message_relayed :
    trimChars " " = "" ∧
    (broadcastChat c7reg "ann" " ").1 = [(1, ServerMsg.chat "ann" "#FF4136" " ")] := by
  decide

/-- C7 witness: the amended theorem applied at a concrete relayed
message containing angle brackets. -/
theorem C7_chat_relay_witness :
    (∀ a ∈ (sanitizeMessage "hi <b>").data, a ≠ '<' ∧ a ≠ '>') ∧
    (∀ k q, (k, q) ∈ c7reg → q.socket.readyStateOpen = true → q.socket.sendThrows = false →
      (q.socket.sid, ServerMsg.chat "ann" c7p.color (sanitizeMessage "hi <b>")) ∈
        (broadcastChat c7reg "ann" "hi <b>").1) :=
  (C7_chat_relay c7reg "ann" "hi <b>").2.2.2 c7p (by decide) (by decide) (by decide)

/-!  ### Claim C8  -/

/-- C8 (confirmed): each `gameState` tick's snapshot contains an entry
for every session registered at the tick that is not evicted by the
sweep (in particular any session that connected within the last 30 s,
e.g. just before the tick), and every snapshot entry is exactly the
five-field `stateView` projection `id, position, rotation, isAlienMode,
landedPlanetId` of a registered session — the `StateView` type has no
color, socket or timing field, so those are excluded by construction. -/
theorem C8_snapshot_complete_and_reduced (reg : Registry) (now : Int) (pid : String)
    (p : Player) (hnd : (reg.map Prod.fst).Nodup) (hp : mapGet reg pid = some p)
    (hfresh : now - p.lastUpdate ≤ timeoutMs) :
    (pid, stateView p) ∈ (syncGameState reg now).snapshot ∧
    ∀ e ∈ (syncGameState reg now).snapshot,
      ∃ k q, (k, q) ∈ reg ∧ e = (k, stateView q) := by
  have hside : ∀ e ∈ reg, now - e.2.lastUpdate > timeoutMs → e.1 ≠ pid := by
    rintro ⟨k, q⟩ hmem hst hkey
    have hkq : mapGet reg k = some q := mapGet_of_mem_nodup hnd hmem
    have hkey' : k = pid := hkey
    rw [hkey', hp] at hkq
    injection hkq with hpq
    subst hpq
    exact absurd hst (not_lt.mpr hfresh)
  have hsweep : mapGet (sweepVisit now reg reg).1 pid = some p := by
    rw [sweepVisit_mapGet_preserved reg reg hside]
    exact hp
  have hmem1 : (pid, p) ∈ (sweepVisit now reg reg).1 := mapGet_mem hsweep
  constructor
  · simp only [syncGameState]
    exact List.mem_map.mpr ⟨(pid, p), hmem1, rfl⟩
  · intro e he
    simp only [syncGameState] at he
    rcases List.mem_map.mp he with ⟨a, ha, hae⟩
    exact ⟨a.1, a.2, mem_of_mem_sweepVisit reg reg a ha, hae.symm⟩

def c8pa : Player :=
  { id := "pa"
    position := ⟨.num (.fin 5), .num (.fin 6), .num (.fin 7)⟩
    rotation := ⟨.num (.fin 0), .num (.fin 0), .num (.fin 0)⟩
    color := "#FF4136", isAlienMode := false, landedPlanetId := none
    lastUpdate := 0, socket := ⟨1, true, false⟩, pingTime := 0 }

def c8pb : Player :=
  { id := "pb"
    position := ⟨.num (.fin 0), .num (.fin 100), .num (.fin 0)⟩
    rotation := ⟨.num (.fin 0), .num (.fin 0), .num (.fin 0)⟩
    color := "#0074D9", isAlienMode := true, landedPlanetId := some "p1"
    lastUpdate := 20, socket := ⟨2, true, false⟩, pingTime := 0 }

def c8reg : Registry := [("pa", c8pa), ("pb", c8pb)]

/-- C8 witness: the theorem applied at a concrete two-player registry —
the session that connected 30 ms before the tick appears in that tick's
snapshot as its five-field projection. -/
theorem C8_snapshot_complete_and_reduced_witness :
    ("pb", stateView c8pb) ∈ (syncGameState c8reg 50).snapshot ∧
    ∀ e ∈ (syncGameState c8reg 50).snapshot,
      ∃ k q, (k, q) ∈ c8reg ∧ e = (k, stateView q) :=
  C8_snapshot_complete_and_reduced c8reg 50 "pb" c8pb (by decide) (by decide) (by decide)

/-!  ### Claim C9  -/

/-- C9 (amended): a `placeBomb` message with a truthy (present,
non-empty) `planetId` and a position passing `isValidPosition` is
rebroadcast to every open, non-throwing socket as `bombPlaced` carrying
the sender id, planetId, position and a countdown equal to the payload
countdown WHEN THAT VALUE IS TRUTHY, and 10 otherwise — the `||` default
applies not only when the payload omits countdown but also when it
supplies a falsy one (0, NaN or empty string).  With a missing or empty
planetId, or a missing or invalid position, nothing is broadcast. -/
theorem C9_placeBomb_relay (reg : Registry) (pid : String) (data : BombData) :
    (data.planetId = none → handleBombPlacement reg pid data = ([], [])) ∧
    (data.planetId = some "" → handleBombPlacement reg pid data = ([], [])) ∧
    (data.position = none → handleBombPlacement reg pid data = ([], [])) ∧
    (∀ pos, data.position = some pos → isValidPosition (some pos) = false →
      handleBombPlacement reg pid data = ([], [])) ∧
    (∀ pl pos, data.planetId = some pl → pl ≠ "" → data.position = some pos →
      isValidPosition (some pos) = true →
      ∀ k q, (k, q) ∈ reg → q.socket.readyStateOpen = true → q.socket.sendThrows = false →
        (q.socket.sid,
          ServerMsg.bombPlaced pid pl pos
            (if jsTruthy data.countdown then data.countdown else .num (.fin 10))) ∈
          (handleBombPlacement reg pid data).1) := by
  refine ⟨?_, ?_, ?_, ?_, ?_⟩
  · intro h
    simp [handleBombPlacement, h]
  · intro h
    cases hpos : data.position with
    | none => simp [handleBombPlacement, h, hpos]
    | some pos => simp [handleBombPlacement, h, hpos]
  · intro h
    cases hpl : data.planetId with
    | none => simp [handleBombPlacement, h, hpl]
    | some pl => simp [handleBombPlacement, h, hpl]
  · intro pos hpos hval
    cases hpl : data.planetId with
    | none => simp [handleBombPlacement, hpl]
    | some pl =>
        simp [handleBombPlacement, hpl, hpos, hval]
  · intro pl pos hpl hplne hpos hval k q hq ho ht
    have hcond : ¬(pl = "" ∨ isValidPosition (some pos) = false) := by
      push_neg
      refine ⟨hplne, ?_⟩
      rw [hval]
      exact fun h => Bool.noConfusion h
    simp only [handleBombPlacement, hpl, hpos, if_neg hcond]
    exact sendAllCaught_mem_delivered hq ho ht

def c9p : Player :=
  { id := "host1"
    position := ⟨.num (.fin 0), .num (.fin 100), .num (.fin 0)⟩
    rotation := ⟨.num (.fin 0), .num (.fin 0), .num (.fin 0)⟩
    color := "#FF4136", isAlienMode := false, landedPlanetId := none
    lastUpdate := 0, socket := ⟨1, true, false⟩, pingTime := 0 }

def c9reg2 : Registry := [("host1", c9p)]

def c9zero : JsVec := ⟨.num (.fin 0), .num (.fin 0), .num (.fin 0)⟩

def c9dataZero : BombData := ⟨some "p1", some c9zero, .num (.fin 0)⟩

/-- C9 counterexample: the payload supplies `countdown: 0`, yet the
broadcast frame carries countdown 10 — the `||` default fires on any
falsy value, refuting the claim that the broadcast countdown equals the
payload-supplied value whenever one is supplied. -/
theorem C9_countdown_zero_defaulted :
    c9dataZero.countdown = JsVal.num (.fin 0) ∧
    (handleBombPlacement c9reg2 "host" c9dataZero).1 =
      [(1, ServerMsg.bombPlaced "host" "p1" c9zero (JsVal.num (.fin 10)))] ∧
    JsVal.num (JsNum.fin 10) ≠ c9dataZero.countdown := by decide

def c9wdata : BombData := ⟨some "p1", some c9zero, .undef⟩

/-- C9 witness: the amended theorem applied at a concrete payload with
no countdown supplied — the broadcast carries the default 10. -/
theorem C9_placeBomb_relay_witness :
    (1, ServerMsg.bombPlaced "host" "p1" c9zero (JsVal.num (.fin 10))) ∈
      (handleBombPlacement c9reg2 "host" c9wdata).1 :=
  (C9_placeBomb_relay c9reg2 "host" c9wdata).2.2.2.2 "p1" c9zero
    (by decide) (by decide) (by decide) (by decide) "host1" c9p
    (by decide) (by decide) (by decide)

end CosmicChaos
